import Mathlib

set_option autoImplicit false

/-!
Verification development for the EdgeStore server SDK core
(`packages/server/src/core/sdk/index.ts`).

The TypeScript module is a thin HTTP client: it builds JSON request
bodies, attaches a Basic-Auth header, issues one POST per operation and
parses the JSON response.  We embed it shallowly:

* `Json` models JavaScript values as they appear after `JSON.parse` /
  before `JSON.stringify`; the `undef` constructor models the JavaScript
  value `undefined` (object fields holding it are dropped by
  `JSON.stringify`, exactly as in `Json.serialize` below).
* The process environment is an explicit `Env` record.
* The network is an oracle `net : HttpRequest → HttpResponse`; every
  operation returns the list of requests it sent together with an
  `Except SdkError` result, so "fails before sending" and "sends exactly
  one POST" are directly statable.
-/

/-- JavaScript/JSON values.  `undef` is JavaScript `undefined`. -/
inductive Json where
  | null : Json
  | undef : Json
  | bool : Bool → Json
  | num : Int → Json
  | str : String → Json
  | arr : List Json → Json
  | obj : List (String × Json) → Json
deriving Repr

/-- Four lowercase hex digits, as in the `\uXXXX` escapes of
`JSON.stringify`. -/
def hexDigit (n : Nat) : Char :=
  "0123456789abcdef".toList.getD n '0'

/-- Escape one character the way `JSON.stringify` escapes characters
inside string literals. -/
def jsonEscapeChar (c : Char) : String :=
  if c = '"' then "\\\""
  else if c = '\\' then "\\\\"
  else if c = '\n' then "\\n"
  else if c = '\t' then "\\t"
  else if c = '\r' then "\\r"
  else if c.toNat = 8 then "\\b"
  else if c.toNat = 12 then "\\f"
  else if c.toNat < 32 then
    "\\u00" ++ String.mk [hexDigit (c.toNat / 16), hexDigit (c.toNat % 16)]
  else String.singleton c

/-- Serialize a string as a JSON string literal. -/
def jsonQuote (s : String) : String :=
  "\"" ++ String.join (s.toList.map jsonEscapeChar) ++ "\""

mutual

/-- Embedding of `JSON.stringify`.  Object fields whose value is
`undefined` are omitted; `undefined` inside arrays becomes `null`
(JavaScript semantics). -/
def Json.serialize : Json → String
  | Json.null => "null"
  | Json.undef => "null"
  | Json.bool true => "true"
  | Json.bool false => "false"
  | Json.num n => toString n
  | Json.str s => jsonQuote s
  | Json.arr xs => "[" ++ serializeList xs ++ "]"
  | Json.obj fs => "\x7b" ++ serializeFields fs ++ "\x7d"

/-- Serialize the elements of a JSON array, comma separated. -/
def serializeList : List Json → String
  | [] => ""
  | [x] => Json.serialize x
  | x :: y :: rest => Json.serialize x ++ "," ++ serializeList (y :: rest)

/-- Serialize the fields of a JSON object, comma separated, skipping
fields whose value is `undefined`. -/
def serializeFields : List (String × Json) → String
  | [] => ""
  | (_, Json.undef) :: rest => serializeFields rest
  | (k, v) :: rest =>
      let this := jsonQuote k ++ ":" ++ Json.serialize v
      let restS := serializeFields rest
      if restS = "" then this else this ++ "," ++ restS

end

/-- JavaScript property access `j.name` on a parsed JSON value: the
field value when `j` is an object containing it, `undefined`
otherwise. -/
def Json.getField (j : Json) (name : String) : Json :=
  match j with
  | Json.obj fs =>
      match fs.lookup name with
      | some v => v
      | none => Json.undef
  | _ => Json.undef

/-- Lift an optional value to a JavaScript value: absent optional
parameters are `undefined`. -/
def Json.ofOption : Option Json → Json
  | none => Json.undef
  | some j => j

/-- Standard base64 alphabet. -/
def base64Chars : List Char :=
  "ABCDEFGHIJKLMNOPQRSTUVWXYZabcdefghijklmnopqrstuvwxyz0123456789+/".toList

/-- Character of the base64 alphabet at index `n` (`n < 64`). -/
def b64c (n : Nat) : Char :=
  base64Chars.getD n 'A'

/-- Base64-encode a byte sequence, with `=` padding, as
`Buffer.toString` with the base64 encoding does. -/
def base64EncodeBytes : List Nat → String
  | [] => ""
  | [a] =>
      String.mk [b64c (a / 4), b64c (a % 4 * 16)] ++ "=="
  | [a, b] =>
      String.mk [b64c (a / 4), b64c (a % 4 * 16 + b / 16), b64c (b % 16 * 4)] ++ "="
  | a :: b :: c :: rest =>
      String.mk [b64c (a / 4), b64c (a % 4 * 16 + b / 16),
        b64c (b % 16 * 4 + c / 64), b64c (c % 64)] ++ base64EncodeBytes rest

/-- UTF-8 byte sequence of one code point, as `Buffer.from` encodes
characters. -/
def utf8BytesOfChar (c : Char) : List Nat :=
  let n := c.toNat
  if n < 128 then [n]
  else if n < 2048 then [192 + n / 64, 128 + n % 64]
  else if n < 65536 then [224 + n / 4096, 128 + n / 64 % 64, 128 + n % 64]
  else [240 + n / 262144, 128 + n / 4096 % 64, 128 + n / 64 % 64, 128 + n % 64]

/-- UTF-8 bytes of a string. -/
def utf8Bytes (s : String) : List Nat :=
  s.toList.flatMap utf8BytesOfChar

/-- Embedding of `Buffer.from(s).toString` with the base64 encoding: base64 of the
UTF-8 bytes of `s`. -/
def base64 (s : String) : String :=
  base64EncodeBytes (utf8Bytes s)

/-- The process environment variables the module reads. -/
structure Env where
  EDGE_STORE_API_ENDPOINT : Option String
  EDGE_STORE_ACCESS_KEY : Option String
  EDGE_STORE_SECRET_KEY : Option String

/-- Embedding of
the module-level constant `API_ENDPOINT`: the environment variable `EDGE_STORE_API_ENDPOINT` when set, the fixed production URL otherwise. -/
def API_ENDPOINT (env : Env) : String :=
  env.EDGE_STORE_API_ENDPOINT.getD "https://api.edgestore.dev"

/-- An outbound HTTP request as `fetch` receives it: URL, method,
serialized body and headers. -/
structure HttpRequest where
  url : String
  method : String
  body : String
  headers : List (String × String)
deriving Repr

/-- An HTTP response: `ok` is the 2xx flag of `fetch`, `text` the raw
body text, `json` the body parsed as JSON (used only on the success
path, where the code calls `res.json()`). -/
structure HttpResponse where
  ok : Bool
  text : String
  json : Json

/-- The two error kinds of the module, plus the `Missing path param`
throw of `getToken`. -/
inductive SdkError where
  | credentialsError : SdkError
  | requestError : String → String → SdkError
  | missingPathParam : SdkError
deriving Repr

/-- The message of each thrown `Error`, as written in the source. -/
def SdkError.message : SdkError → String
  | SdkError.credentialsError => "Missing EDGE_STORE_ACCESS_KEY or EDGE_STORE_SECRET_KEY"
  | SdkError.requestError path text => "Failed to make request to " ++ path ++ ": " ++ text
  | SdkError.missingPathParam => "Missing path param"

/-- The request `makeRequest` hands to `fetch`: POST to
`API_ENDPOINT + path`, JSON body, `Content-Type` and Basic-Auth
headers. -/
def requestOf (env : Env) (body : Json) (accessKey secretKey path : String) : HttpRequest :=
  { url := API_ENDPOINT env ++ path
    method := "POST"
    body := body.serialize
    headers := [("Content-Type", "application/json"),
      ("Authorization", "Basic " ++ base64 (accessKey ++ ":" ++ secretKey))] }

/-- Embedding of `makeRequest`: issues exactly one request through the
network oracle `net`; on a non-2xx response throws an error carrying the
path and the response body text, otherwise returns the body parsed as
JSON (no validation).  The first component records the requests sent. -/
def makeRequest (env : Env) (net : HttpRequest → HttpResponse) (body : Json)
    (accessKey secretKey path : String) : List HttpRequest × Except SdkError Json :=
  let req := requestOf env body accessKey secretKey path
  let res := net req
  ([req], if res.ok then Except.ok res.json
    else Except.error (SdkError.requestError path res.text))

/-- A bucket definition as `getToken` reads it: `_def.path` is the
ordered list of path-parameter objects, each an insertion-ordered list
of key / value-producing-function entries (`Object.entries` order), and
`_def.accessControl` the opaque access-control descriptor. -/
structure BucketDef where
  path : List (List (String × (Unit → String)))
  accessControl : Json

/-- A bucket as the router exposes it. -/
structure Bucket where
  _def : BucketDef

/-- A router: `Object.entries(router.buckets)` in insertion order. -/
structure AnyRouter where
  buckets : List (String × Bucket)

/-- Map a throwing function over a list, stopping at the first thrown
error, as a JavaScript `map` callback that can throw does. -/
def mapExcept {α β ε : Type} (f : α → Except ε β) : List α → Except ε (List β)
  | [] => Except.ok []
  | x :: xs =>
      match f x with
      | Except.error e => Except.error e
      | Except.ok y =>
          match mapExcept f xs with
          | Except.error e => Except.error e
          | Except.ok ys => Except.ok (y :: ys)

/-- Embedding of the mapper inside `getToken`: takes the first entry of
the path-parameter object (`paramEntries[0]`), throwing
`Missing path param` when the object is empty; any further entries of
the object are ignored. -/
def evalPathParam (p : List (String × (Unit → String))) : Except SdkError Json :=
  match p with
  | [] => Except.error SdkError.missingPathParam
  | (key, value) :: _ =>
      Except.ok (Json.obj [("key", Json.str key), ("value", Json.str (value ()))])

/-- The per-bucket value `getToken` builds:
`{path: ..., accessControl: ...}`; a throw inside the path mapper
propagates. -/
def bucketToReq (bucket : Bucket) : Except SdkError Json :=
  match mapExcept evalPathParam bucket._def.path with
  | Except.error e => Except.error e
  | Except.ok path =>
      Except.ok (Json.obj [("path", Json.arr path), ("accessControl", bucket._def.accessControl)])

/-- Embedding of the `reduce` in `getToken` building `reqBuckets`: a map
from bucket name to `{path, accessControl}` in bucket insertion order,
throwing at the first empty path-parameter object (before any request is
sent). -/
def buildReqBuckets (router : AnyRouter) : Except SdkError Json :=
  match mapExcept (fun nb => (bucketToReq nb.2).map (fun bj => (nb.1, bj))) router.buckets with
  | Except.error e => Except.error e
  | Except.ok entries => Except.ok (Json.obj entries)

/-- Embedding of `edgeStoreRawSdk.getToken`: builds `reqBuckets`, posts
`{ctx, buckets}` to `/get-token` and returns the `token` field of the
response. -/
def edgeStoreRawSdk.getToken (env : Env) (net : HttpRequest → HttpResponse)
    (accessKey secretKey : String) (ctx : Json) (router : AnyRouter) :
    List HttpRequest × Except SdkError Json :=
  match buildReqBuckets router with
  | Except.error e => ([], Except.error e)
  | Except.ok reqBuckets =>
      let sr := makeRequest env net
        (Json.obj [("ctx", ctx), ("buckets", reqBuckets)])
        accessKey secretKey "/get-token"
      (sr.1, sr.2.map (fun j => j.getField "token"))

/-- Embedding of `edgeStoreRawSdk.getFile`: posts `{url}` to `/get-file`
and returns the parsed response. -/
def edgeStoreRawSdk.getFile (env : Env) (net : HttpRequest → HttpResponse)
    (accessKey secretKey url : String) : List HttpRequest × Except SdkError Json :=
  makeRequest env net (Json.obj [("url", Json.str url)]) accessKey secretKey "/get-file"

/-- Embedding of `FileInfoForUpload`. -/
structure FileInfoForUpload where
  size : Int
  extension : String
  isPublic : Bool
  path : List (String × String)
  metadata : Option (List (String × String))
  replaceTargetUrl : Option String

/-- A `{key, value}` path entry as JSON. -/
def pathEntryJson (p : String × String) : Json :=
  Json.obj [("key", Json.str p.1), ("value", Json.str p.2)]

/-- An optional string-to-string map as a JavaScript value. -/
def metadataJson : Option (List (String × String)) → Json
  | none => Json.undef
  | some m => Json.obj (m.map (fun kv => (kv.1, Json.str kv.2)))

/-- An optional string as a JavaScript value. -/
def optStrJson : Option String → Json
  | none => Json.undef
  | some s => Json.str s

/-- The `multipart` parameter of `requestUpload`: `{parts: number[]}`. -/
structure MultipartParams where
  parts : List Int

/-- The `multipart` parameter as a JavaScript value. -/
def MultipartParams.toJson (m : MultipartParams) : Json :=
  Json.obj [("parts", Json.arr (m.parts.map Json.num))]

/-- The optional `multipart` parameter as a JavaScript value. -/
def optMultipartJson : Option MultipartParams → Json
  | none => Json.undef
  | some m => m.toJson

/-- The value `requestUpload` returns:
`{multipart: res.multipart, signedUrl: res.signedUrl, accessUrl: res.url}`. -/
structure RequestUploadResult where
  multipart : Json
  signedUrl : Json
  accessUrl : Json
deriving Repr

/-- Embedding of `edgeStoreRawSdk.requestUpload`: posts the flattened
file info to `/request-upload` and repackages the response, renaming
`url` to `accessUrl`. -/
def edgeStoreRawSdk.requestUpload (env : Env) (net : HttpRequest → HttpResponse)
    (accessKey secretKey bucketName bucketType : String)
    (fileInfo : FileInfoForUpload) (multipart : Option MultipartParams) :
    List HttpRequest × Except SdkError RequestUploadResult :=
  let sr := makeRequest env net
    (Json.obj [("multipart", optMultipartJson multipart),
      ("bucketName", Json.str bucketName),
      ("bucketType", Json.str bucketType),
      ("isPublic", Json.bool fileInfo.isPublic),
      ("path", Json.arr (fileInfo.path.map pathEntryJson)),
      ("extension", Json.str fileInfo.extension),
      ("size", Json.num fileInfo.size),
      ("metadata", metadataJson fileInfo.metadata),
      ("replaceTargetUrl", optStrJson fileInfo.replaceTargetUrl)])
    accessKey secretKey "/request-upload"
  (sr.1, sr.2.map (fun res =>
    { multipart := res.getField "multipart"
      signedUrl := res.getField "signedUrl"
      accessUrl := res.getField "url" }))

/-- The `multipart` parameter of `requestUploadParts`:
`{uploadId?: string, parts: number[]}`. -/
structure UploadPartsMultipart where
  uploadId : Option String
  parts : List Int

/-- The `requestUploadParts` multipart parameter as a JavaScript
value. -/
def UploadPartsMultipart.toJson (m : UploadPartsMultipart) : Json :=
  Json.obj [("uploadId", optStrJson m.uploadId),
    ("parts", Json.arr (m.parts.map Json.num))]

/-- Embedding of `edgeStoreRawSdk.requestUploadParts`: posts
`{multipart, key}` to `/request-upload-parts` and returns
`{multipart: res.multipart}`. -/
def edgeStoreRawSdk.requestUploadParts (env : Env) (net : HttpRequest → HttpResponse)
    (accessKey secretKey key : String) (multipart : UploadPartsMultipart) :
    List HttpRequest × Except SdkError Json :=
  let sr := makeRequest env net
    (Json.obj [("multipart", multipart.toJson), ("key", Json.str key)])
    accessKey secretKey "/request-upload-parts"
  (sr.1, sr.2.map (fun res => Json.obj [("multipart", res.getField "multipart")]))

/-- Embedding of `edgeStoreRawSdk.deleteFile`: posts `{url}` to
`/delete-file` and returns the parsed response. -/
def edgeStoreRawSdk.deleteFile (env : Env) (net : HttpRequest → HttpResponse)
    (accessKey secretKey url : String) : List HttpRequest × Except SdkError Json :=
  makeRequest env net (Json.obj [("url", Json.str url)]) accessKey secretKey "/delete-file"

/-- Embedding of `edgeStoreRawSdk.listFiles`: posts
`{bucketName, filter, pagination}` to `/list-files` and returns the
parsed response.  The `filter` and `pagination` arguments are pure data
the code never inspects, so they are represented by their JavaScript
values. -/
def edgeStoreRawSdk.listFiles (env : Env) (net : HttpRequest → HttpResponse)
    (accessKey secretKey bucketName : String)
    (filter pagination : Option Json) : List HttpRequest × Except SdkError Json :=
  makeRequest env net
    (Json.obj [("bucketName", Json.str bucketName),
      ("filter", Json.ofOption filter),
      ("pagination", Json.ofOption pagination)])
    accessKey secretKey "/list-files"

/-- The optional parameter object of `initEdgeStoreSdk`; a field is
`none` when the property is absent or `undefined`. -/
structure InitParams where
  accessKey : Option String
  secretKey : Option String

/-- JavaScript truthiness of an optional string: `undefined` and the
empty string are falsy. -/
def truthyStr : Option String → Bool
  | none => false
  | some s => !(s == "")

/-- The destructuring
`const { accessKey = process.env.EDGE_STORE_ACCESS_KEY } = params ?? {}`:
the environment default applies only when the property is `undefined`. -/
def resolveAccessKey (env : Env) (params : Option InitParams) : Option String :=
  match (params.getD { accessKey := none, secretKey := none }).accessKey with
  | some s => some s
  | none => env.EDGE_STORE_ACCESS_KEY

/-- The destructuring
`const { secretKey = process.env.EDGE_STORE_SECRET_KEY } = params ?? {}`. -/
def resolveSecretKey (env : Env) (params : Option InitParams) : Option String :=
  match (params.getD { accessKey := none, secretKey := none }).secretKey with
  | some s => some s
  | none => env.EDGE_STORE_SECRET_KEY

/-- The client handle `initEdgeStoreSdk` returns: the resolved
credentials, closed over by the six operations. -/
structure Sdk where
  accessKey : String
  secretKey : String
deriving Repr

/-- Embedding of `initEdgeStoreSdk`: resolves the credentials (explicit
argument, else environment), throws `EdgeStoreCredentialsError` when
either resolved key is falsy, and otherwise returns the handle with the
credentials bound. -/
def initEdgeStoreSdk (env : Env) (params : Option InitParams) : Except SdkError Sdk :=
  let accessKey := resolveAccessKey env params
  let secretKey := resolveSecretKey env params
  if !(truthyStr accessKey) || !(truthyStr secretKey) then
    Except.error SdkError.credentialsError
  else
    Except.ok { accessKey := accessKey.getD "", secretKey := secretKey.getD "" }

/-- The handle method `getToken`: delegates to `edgeStoreRawSdk.getToken`
with the bound credentials. -/
def Sdk.getToken (sdk : Sdk) (env : Env) (net : HttpRequest → HttpResponse)
    (ctx : Json) (router : AnyRouter) : List HttpRequest × Except SdkError Json :=
  edgeStoreRawSdk.getToken env net sdk.accessKey sdk.secretKey ctx router

/-- The handle method `getFile`: delegates to `edgeStoreRawSdk.getFile` with
the bound credentials. -/
def Sdk.getFile (sdk : Sdk) (env : Env) (net : HttpRequest → HttpResponse)
    (url : String) : List HttpRequest × Except SdkError Json :=
  edgeStoreRawSdk.getFile env net sdk.accessKey sdk.secretKey url

/-- The handle method `requestUpload`: delegates to
`edgeStoreRawSdk.requestUpload` with the bound credentials. -/
def Sdk.requestUpload (sdk : Sdk) (env : Env) (net : HttpRequest → HttpResponse)
    (bucketName bucketType : String) (fileInfo : FileInfoForUpload)
    (multipart : Option MultipartParams) :
    List HttpRequest × Except SdkError RequestUploadResult :=
  edgeStoreRawSdk.requestUpload env net sdk.accessKey sdk.secretKey
    bucketName bucketType fileInfo multipart

/-- The handle method `requestUploadParts`: delegates to
`edgeStoreRawSdk.requestUploadParts` with the bound credentials. -/
def Sdk.requestUploadParts (sdk : Sdk) (env : Env) (net : HttpRequest → HttpResponse)
    (key : String) (multipart : UploadPartsMultipart) :
    List HttpRequest × Except SdkError Json :=
  edgeStoreRawSdk.requestUploadParts env net sdk.accessKey sdk.secretKey key multipart

/-- The handle method `deleteFile`: delegates to `edgeStoreRawSdk.deleteFile`
with the bound credentials. -/
def Sdk.deleteFile (sdk : Sdk) (env : Env) (net : HttpRequest → HttpResponse)
    (url : String) : List HttpRequest × Except SdkError Json :=
  edgeStoreRawSdk.deleteFile env net sdk.accessKey sdk.secretKey url

/-- The handle method `listFiles`: delegates to `edgeStoreRawSdk.listFiles`
with the bound credentials (`...params` spread). -/
def Sdk.listFiles (sdk : Sdk) (env : Env) (net : HttpRequest → HttpResponse)
    (bucketName : String) (filter pagination : Option Json) :
    List HttpRequest × Except SdkError Json :=
  edgeStoreRawSdk.listFiles env net sdk.accessKey sdk.secretKey bucketName filter pagination

/-- The `{key, value}` pair produced from a nonempty path-parameter
object: its first entry, with the value function evaluated.  (On the
empty object `getToken` throws instead; the `Json.null` branch here is
never reached under that hypothesis.) -/
def firstEntryJson (p : List (String × (Unit → String))) : Json :=
  match p with
  | [] => Json.null
  | (key, value) :: _ => Json.obj [("key", Json.str key), ("value", Json.str (value ()))]

/-- An environment with no variable set, for concrete instances. -/
def emptyEnv : Env :=
  { EDGE_STORE_API_ENDPOINT := none, EDGE_STORE_ACCESS_KEY := none,
    EDGE_STORE_SECRET_KEY := none }

/-- A network oracle that always answers 2xx with the given parsed
body. -/
def okNet (j : Json) : HttpRequest → HttpResponse :=
  fun _ => { ok := true, text := "", json := j }

/-- A network oracle that always answers a failing status with the
given body text. -/
def failNet (t : String) : HttpRequest → HttpResponse :=
  fun _ => { ok := false, text := t, json := Json.null }

/-- A one-bucket router whose single path-parameter object has the
single entry `type ↦ "post"`. -/
def sampleRouter : AnyRouter :=
  { buckets := [("publicFiles",
      { _def := { path := [[("type", fun _ => "post")]], accessControl := Json.null } })] }

/-- A one-bucket router whose path list contains an empty
path-parameter object. -/
def emptyEntryRouter : AnyRouter :=
  { buckets := [("publicFiles",
      { _def := { path := [[]], accessControl := Json.null } })] }

/-- An environment in which both credential variables hold usable
(nonempty) values. -/
def populatedEnv : Env :=
  { EDGE_STORE_API_ENDPOINT := none, EDGE_STORE_ACCESS_KEY := some "envAccess",
    EDGE_STORE_SECRET_KEY := some "envSecret" }

/-- A sample file info for concrete instances. -/
def sampleFileInfo : FileInfoForUpload :=
  { size := 10, extension := "png", isPublic := true, path := [("type", "post")],
    metadata := none, replaceTargetUrl := none }

/-! ## Shared lemmas about the bucket map of getToken -/

/-- Over a list of nonempty path-parameter objects the mapper succeeds,
yielding the first entry of each object. -/
theorem mapExcept_evalPathParam_ok (ps : List (List (String × (Unit → String))))
    (h : ∀ p ∈ ps, p ≠ []) :
    mapExcept evalPathParam ps = Except.ok (ps.map firstEntryJson) := by
  induction ps with
  | nil => rfl
  | cons p ps ih =>
      cases p with
      | nil => exact absurd rfl (h [] (List.mem_cons_self _ _))
      | cons e rest =>
          obtain ⟨k, v⟩ := e
          simp [mapExcept, evalPathParam, firstEntryJson,
            ih (fun q hq => h q (List.mem_cons_of_mem _ hq))]

/-- A list of path-parameter objects containing an empty object makes
the mapper throw `Missing path param`. -/
theorem mapExcept_evalPathParam_err (ps : List (List (String × (Unit → String))))
    (h : [] ∈ ps) :
    mapExcept evalPathParam ps = Except.error SdkError.missingPathParam := by
  induction ps with
  | nil => cases h
  | cons p ps ih =>
      cases p with
      | nil => simp [mapExcept, evalPathParam]
      | cons e rest =>
          obtain ⟨k, v⟩ := e
          have hmem : [] ∈ ps := by
            rcases List.mem_cons.mp h with h1 | h1
            · exact absurd h1 (by simp)
            · exact h1
          simp [mapExcept, evalPathParam, ih hmem]

/-- A bucket whose path-parameter objects are all nonempty yields its
`{path, accessControl}` value. -/
theorem bucketToReq_ok (b : Bucket) (h : ∀ p ∈ b._def.path, p ≠ []) :
    bucketToReq b = Except.ok (Json.obj
      [("path", Json.arr (b._def.path.map firstEntryJson)),
       ("accessControl", b._def.accessControl)]) := by
  simp [bucketToReq, mapExcept_evalPathParam_ok _ h]

/-- A bucket with an empty path-parameter object throws. -/
theorem bucketToReq_err (b : Bucket) (h : [] ∈ b._def.path) :
    bucketToReq b = Except.error SdkError.missingPathParam := by
  simp [bucketToReq, mapExcept_evalPathParam_err _ h]

/-- Over buckets whose path-parameter objects are all nonempty, the
bucket mapper succeeds with the name-to-value pairs in order. -/
theorem mapExcept_buckets_ok (bs : List (String × Bucket))
    (h : ∀ nb ∈ bs, ∀ p ∈ nb.2._def.path, p ≠ []) :
    mapExcept (fun nb => (bucketToReq nb.2).map (fun bj => (nb.1, bj))) bs
      = Except.ok (bs.map (fun nb =>
          (nb.1, Json.obj [("path", Json.arr (nb.2._def.path.map firstEntryJson)),
            ("accessControl", nb.2._def.accessControl)]))) := by
  induction bs with
  | nil => rfl
  | cons b bs ih =>
      simp only [mapExcept]
      rw [bucketToReq_ok b.2 (h b (List.mem_cons_self _ _)),
        ih (fun nb hnb => h nb (List.mem_cons_of_mem _ hnb))]
      simp [Except.map]

/-- A bucket list containing an empty path-parameter object anywhere
makes the bucket mapper throw `Missing path param`. -/
theorem mapExcept_buckets_err (bs : List (String × Bucket))
    (h : ∃ nb ∈ bs, [] ∈ nb.2._def.path) :
    mapExcept (fun nb => (bucketToReq nb.2).map (fun bj => (nb.1, bj))) bs
      = Except.error SdkError.missingPathParam := by
  induction bs with
  | nil => simp at h
  | cons b bs ih =>
      by_cases hb : [] ∈ b.2._def.path
      · simp [mapExcept, bucketToReq_err b.2 hb, Except.map]
      · have hne : ∀ p ∈ b.2._def.path, p ≠ [] := by
          intro p hp hpe
          exact hb (hpe ▸ hp)
        have htail : ∃ nb ∈ bs, [] ∈ nb.2._def.path := by
          rcases h with ⟨nb, hnb, hnbe⟩
          rcases List.mem_cons.mp hnb with h1 | h1
          · exact absurd hnbe (h1 ▸ hb)
          · exact ⟨nb, h1, hnbe⟩
        simp only [mapExcept]
        rw [bucketToReq_ok b.2 hne, ih htail]
        simp [Except.map]

/-- Under all-nonempty path-parameter objects, `buildReqBuckets`
produces the map from bucket name to `{path, accessControl}`. -/
theorem buildReqBuckets_ok (router : AnyRouter)
    (h : ∀ nb ∈ router.buckets, ∀ p ∈ nb.2._def.path, p ≠ []) :
    buildReqBuckets router = Except.ok (Json.obj (router.buckets.map (fun nb =>
      (nb.1, Json.obj [("path", Json.arr (nb.2._def.path.map firstEntryJson)),
        ("accessControl", nb.2._def.accessControl)])))) := by
  simp [buildReqBuckets, mapExcept_buckets_ok router.buckets h]

/-- With an empty path-parameter object somewhere, `buildReqBuckets`
throws `Missing path param`. -/
theorem buildReqBuckets_err (router : AnyRouter)
    (h : ∃ nb ∈ router.buckets, [] ∈ nb.2._def.path) :
    buildReqBuckets router = Except.error SdkError.missingPathParam := by
  simp [buildReqBuckets, mapExcept_buckets_err router.buckets h]

/-! ## Claims -/

/-- C1: for every call to the factory in which, after falling back to
the environment variables `EDGE_STORE_ACCESS_KEY` and
`EDGE_STORE_SECRET_KEY`, the access key or the secret key is still
absent, `initEdgeStoreSdk` fails with `CredentialsError` and returns no
client handle. -/
theorem initEdgeStoreSdk_absent_key_fails (env : Env) (params : Option InitParams)
    (h : resolveAccessKey env params = none ∨ resolveSecretKey env params = none) :
    initEdgeStoreSdk env params = Except.error SdkError.credentialsError := by
  unfold initEdgeStoreSdk
  rcases h with h | h <;> simp [h, truthyStr]

/-- Witness for C1: with no explicit keys and an empty environment the
access key resolves to absent and the factory fails. -/
theorem initEdgeStoreSdk_absent_key_fails_witness :
    resolveAccessKey emptyEnv none = none ∧
    initEdgeStoreSdk emptyEnv none = Except.error SdkError.credentialsError :=
  ⟨rfl, initEdgeStoreSdk_absent_key_fails emptyEnv none (Or.inl rfl)⟩

/-- C4: for every router containing some bucket whose path list contains
an empty path-parameter object, `getToken` fails (with the
`Missing path param` throw) before any HTTP request is sent: the request
trace is empty, so no POST to `/get-token` is issued. -/
theorem getToken_empty_path_entry_fails (env : Env) (net : HttpRequest → HttpResponse)
    (accessKey secretKey : String) (ctx : Json) (router : AnyRouter)
    (h : ∃ nb ∈ router.buckets, [] ∈ nb.2._def.path) :
    edgeStoreRawSdk.getToken env net accessKey secretKey ctx router
      = ([], Except.error SdkError.missingPathParam) := by
  simp [edgeStoreRawSdk.getToken, buildReqBuckets_err router h]

/-- Witness for C4: a concrete router with an empty path-parameter
object makes `getToken` fail with no request sent. -/
theorem getToken_empty_path_entry_fails_witness :
    edgeStoreRawSdk.getToken emptyEnv (okNet Json.null) "ak" "sk" Json.null emptyEntryRouter
      = ([], Except.error SdkError.missingPathParam) :=
  getToken_empty_path_entry_fails emptyEnv (okNet Json.null) "ak" "sk" Json.null
    emptyEntryRouter
    ⟨("publicFiles", { _def := { path := [[]], accessControl := Json.null } }),
      by simp [emptyEntryRouter], by simp⟩

/-- C5: for every router whose buckets all have nonempty path-parameter
objects, `getToken` builds the buckets field of the request body as the
map from each bucket name to `{path, accessControl}` — `path` being the
ordered list of `{key, value}` pairs obtained by evaluating the
path-parameter functions (`firstEntryJson`), `accessControl` the bucket
access-control descriptor — and sends it together with `ctx` to
`/get-token` in a single request. -/
theorem getToken_builds_bucket_map (env : Env) (net : HttpRequest → HttpResponse)
    (accessKey secretKey : String) (ctx : Json) (router : AnyRouter)
    (h : ∀ nb ∈ router.buckets, ∀ p ∈ nb.2._def.path, p ≠ []) :
    buildReqBuckets router = Except.ok (Json.obj (router.buckets.map (fun nb =>
      (nb.1, Json.obj [("path", Json.arr (nb.2._def.path.map firstEntryJson)),
        ("accessControl", nb.2._def.accessControl)]))))
    ∧ (edgeStoreRawSdk.getToken env net accessKey secretKey ctx router).1
      = [requestOf env
          (Json.obj [("ctx", ctx),
            ("buckets", Json.obj (router.buckets.map (fun nb =>
              (nb.1, Json.obj [("path", Json.arr (nb.2._def.path.map firstEntryJson)),
                ("accessControl", nb.2._def.accessControl)]))))])
          accessKey secretKey "/get-token"] := by
  refine ⟨buildReqBuckets_ok router h, ?_⟩
  simp [edgeStoreRawSdk.getToken, buildReqBuckets_ok router h, makeRequest]

/-- Witness for C5: the bucket map and the single request sent for a
concrete one-bucket router, with the path-parameter function
evaluated. -/
theorem getToken_builds_bucket_map_witness :
    buildReqBuckets sampleRouter = Except.ok (Json.obj
      [("publicFiles", Json.obj
        [("path", Json.arr [Json.obj [("key", Json.str "type"), ("value", Json.str "post")]]),
         ("accessControl", Json.null)])])
    ∧ (edgeStoreRawSdk.getToken emptyEnv (okNet Json.null) "ak" "sk" Json.null
        sampleRouter).1
      = [requestOf emptyEnv
          (Json.obj [("ctx", Json.null),
            ("buckets", Json.obj
              [("publicFiles", Json.obj
                [("path", Json.arr
                  [Json.obj [("key", Json.str "type"), ("value", Json.str "post")]]),
                 ("accessControl", Json.null)])])])
          "ak" "sk" "/get-token"] :=
  getToken_builds_bucket_map emptyEnv (okNet Json.null) "ak" "sk" Json.null sampleRouter
    (by
      intro nb hnb p hp
      simp [sampleRouter] at hnb
      subst hnb
      simp at hp
      subst hp
      simp)

/-- C9 (implicit): an explicitly supplied empty-string key is not
replaced by the environment fallback — the `EDGE_STORE_ACCESS_KEY` /
`EDGE_STORE_SECRET_KEY` default applies only when the argument is
`undefined` — and `initEdgeStoreSdk` then fails with `CredentialsError`
even when the environment variables hold usable values. -/
theorem explicit_empty_key_not_replaced (env : Env) (ps : InitParams)
    (h : ps.accessKey = some "" ∨ ps.secretKey = some "") :
    (ps.accessKey = some "" → resolveAccessKey env (some ps) = some "")
    ∧ (ps.secretKey = some "" → resolveSecretKey env (some ps) = some "")
    ∧ initEdgeStoreSdk env (some ps) = Except.error SdkError.credentialsError := by
  refine ⟨?_, ?_, ?_⟩
  · intro ha
    simp [resolveAccessKey, ha]
  · intro hs
    simp [resolveSecretKey, hs]
  · rcases h with ha | hs
    · simp [initEdgeStoreSdk, resolveAccessKey, ha, truthyStr]
    · simp [initEdgeStoreSdk, resolveSecretKey, hs, truthyStr]

/-- Witness for C9: an explicit empty access key with a fully populated
environment is kept as the empty string, and the factory fails although
both environment variables carry usable values. -/
theorem explicit_empty_key_not_replaced_witness :
    resolveAccessKey populatedEnv
      (some { accessKey := some "", secretKey := some "goodKey" }) = some ""
    ∧ initEdgeStoreSdk populatedEnv
      (some { accessKey := some "", secretKey := some "goodKey" })
      = Except.error SdkError.credentialsError :=
  ⟨(explicit_empty_key_not_replaced populatedEnv
      { accessKey := some "", secretKey := some "goodKey" } (Or.inl rfl)).1 rfl,
   (explicit_empty_key_not_replaced populatedEnv
      { accessKey := some "", secretKey := some "goodKey" } (Or.inl rfl)).2.2⟩

/-- C10 (implicit): when a path-parameter object has more than one
entry, `getToken` evaluates and includes only the first entry in
enumeration order; all additional entries are ignored — the request is
identical to the one for the object truncated to its first entry. -/
theorem getToken_ignores_extra_path_entries (env : Env) (net : HttpRequest → HttpResponse)
    (accessKey secretKey : String) (ctx : Json) (name : String) (ac : Json)
    (k : String) (v : Unit → String) (rest : List (String × (Unit → String))) :
    evalPathParam ((k, v) :: rest)
      = Except.ok (Json.obj [("key", Json.str k), ("value", Json.str (v ()))])
    ∧ edgeStoreRawSdk.getToken env net accessKey secretKey ctx
        { buckets := [(name, { _def := { path := [(k, v) :: rest], accessControl := ac } })] }
      = edgeStoreRawSdk.getToken env net accessKey secretKey ctx
        { buckets := [(name, { _def := { path := [[(k, v)]], accessControl := ac } })] } :=
  ⟨rfl, rfl⟩

/-- C2 counterexample: on a 2xx response whose body parses to
`{token: "t"}`, the `getToken` operation returns the `token` field, not
the response body parsed as JSON — so the claim "(2xx) the operation
returns the response body parsed as JSON" is false for `getToken`. -/
theorem getToken_returns_token_not_body :
    (edgeStoreRawSdk.getToken emptyEnv (okNet (Json.obj [("token", Json.str "t")]))
        "ak" "sk" Json.null sampleRouter).2 = Except.ok (Json.str "t")
    ∧ (edgeStoreRawSdk.getToken emptyEnv (okNet (Json.obj [("token", Json.str "t")]))
        "ak" "sk" Json.null sampleRouter).2
      ≠ Except.ok (Json.obj [("token", Json.str "t")]) := by
  have h1 : (edgeStoreRawSdk.getToken emptyEnv (okNet (Json.obj [("token", Json.str "t")]))
      "ak" "sk" Json.null sampleRouter).2 = Except.ok (Json.str "t") := rfl
  refine ⟨h1, ?_⟩
  rw [h1]
  simp

/-- C2 (amended): for every operation and HTTP response, a non-2xx
response makes the operation fail with a `RequestError` carrying the
request path and the raw response body text; on a 2xx response no
operation fails: the request primitive `makeRequest` returns the
response body parsed as JSON with no runtime schema validation, and each
operation returns that parsed body up to its fixed reshaping
(`getToken` extracts the `token` field, `requestUpload` and
`requestUploadParts` repackage fields). -/
theorem operations_response_handling
    (env : Env) (net : HttpRequest → HttpResponse) (body ctx : Json) (router : AnyRouter)
    (accessKey secretKey path url bucketName bucketType key : String)
    (fileInfo : FileInfoForUpload) (mp : Option MultipartParams)
    (upm : UploadPartsMultipart) (filter pagination : Option Json)
    (hrb : ∀ nb ∈ router.buckets, ∀ p ∈ nb.2._def.path, p ≠ []) :
    (∀ r : HttpResponse, net (requestOf env body accessKey secretKey path) = r →
      (makeRequest env net body accessKey secretKey path).2
        = if r.ok then Except.ok r.json
          else Except.error (SdkError.requestError path r.text))
    ∧ (∀ r : HttpResponse,
        net (requestOf env
          (Json.obj [("ctx", ctx),
            ("buckets", Json.obj (router.buckets.map (fun nb =>
              (nb.1, Json.obj [("path", Json.arr (nb.2._def.path.map firstEntryJson)),
                ("accessControl", nb.2._def.accessControl)]))))])
          accessKey secretKey "/get-token") = r →
        (edgeStoreRawSdk.getToken env net accessKey secretKey ctx router).2
          = if r.ok then Except.ok (r.json.getField "token")
            else Except.error (SdkError.requestError "/get-token" r.text))
    ∧ (∀ r : HttpResponse,
        net (requestOf env (Json.obj [("url", Json.str url)]) accessKey secretKey
          "/get-file") = r →
        (edgeStoreRawSdk.getFile env net accessKey secretKey url).2
          = if r.ok then Except.ok r.json
            else Except.error (SdkError.requestError "/get-file" r.text))
    ∧ (∀ r : HttpResponse,
        net (requestOf env
          (Json.obj [("multipart", optMultipartJson mp),
            ("bucketName", Json.str bucketName),
            ("bucketType", Json.str bucketType),
            ("isPublic", Json.bool fileInfo.isPublic),
            ("path", Json.arr (fileInfo.path.map pathEntryJson)),
            ("extension", Json.str fileInfo.extension),
            ("size", Json.num fileInfo.size),
            ("metadata", metadataJson fileInfo.metadata),
            ("replaceTargetUrl", optStrJson fileInfo.replaceTargetUrl)])
          accessKey secretKey "/request-upload") = r →
        (edgeStoreRawSdk.requestUpload env net accessKey secretKey bucketName bucketType
          fileInfo mp).2
          = if r.ok then Except.ok
              { multipart := r.json.getField "multipart",
                signedUrl := r.json.getField "signedUrl",
                accessUrl := r.json.getField "url" }
            else Except.error (SdkError.requestError "/request-upload" r.text))
    ∧ (∀ r : HttpResponse,
        net (requestOf env (Json.obj [("multipart", upm.toJson), ("key", Json.str key)])
          accessKey secretKey "/request-upload-parts") = r →
        (edgeStoreRawSdk.requestUploadParts env net accessKey secretKey key upm).2
          = if r.ok then Except.ok (Json.obj [("multipart", r.json.getField "multipart")])
            else Except.error (SdkError.requestError "/request-upload-parts" r.text))
    ∧ (∀ r : HttpResponse,
        net (requestOf env (Json.obj [("url", Json.str url)]) accessKey secretKey
          "/delete-file") = r →
        (edgeStoreRawSdk.deleteFile env net accessKey secretKey url).2
          = if r.ok then Except.ok r.json
            else Except.error (SdkError.requestError "/delete-file" r.text))
    ∧ (∀ r : HttpResponse,
        net (requestOf env (Json.obj [("bucketName", Json.str bucketName),
          ("filter", Json.ofOption filter), ("pagination", Json.ofOption pagination)])
          accessKey secretKey "/list-files") = r →
        (edgeStoreRawSdk.listFiles env net accessKey secretKey bucketName filter
          pagination).2
          = if r.ok then Except.ok r.json
            else Except.error (SdkError.requestError "/list-files" r.text)) := by
  refine ⟨?_, ?_, ?_, ?_, ?_, ?_, ?_⟩ <;> intro r hr <;> cases hok : r.ok <;>
    simp [makeRequest, edgeStoreRawSdk.getToken, edgeStoreRawSdk.getFile,
      edgeStoreRawSdk.requestUpload, edgeStoreRawSdk.requestUploadParts,
      edgeStoreRawSdk.deleteFile, edgeStoreRawSdk.listFiles,
      buildReqBuckets_ok router hrb, hr, hok, Except.map]

/-- Witness for C2 (amended): concrete non-2xx and 2xx responses for
two operations, with the definitions evaluated. -/
theorem operations_response_handling_witness :
    (edgeStoreRawSdk.getFile emptyEnv (failNet "boom") "ak" "sk" "u").2
      = Except.error (SdkError.requestError "/get-file" "boom")
    ∧ (edgeStoreRawSdk.deleteFile emptyEnv (okNet (Json.obj [("success", Json.bool true)]))
        "ak" "sk" "u").2
      = Except.ok (Json.obj [("success", Json.bool true)]) := by
  have hrb : ∀ nb ∈ sampleRouter.buckets, ∀ p ∈ nb.2._def.path, p ≠ [] := by
    intro nb hnb p hp
    simp [sampleRouter] at hnb
    subst hnb
    simp at hp
    subst hp
    simp
  refine ⟨?_, ?_⟩
  · exact (operations_response_handling emptyEnv (failNet "boom") Json.null Json.null
      sampleRouter "ak" "sk" "/x" "u" "b" "t" "k" sampleFileInfo none
      { uploadId := none, parts := [] } none none hrb).2.2.1
      { ok := false, text := "boom", json := Json.null } rfl
  · exact (operations_response_handling emptyEnv
      (okNet (Json.obj [("success", Json.bool true)])) Json.null Json.null
      sampleRouter "ak" "sk" "/x" "u" "b" "t" "k" sampleFileInfo none
      { uploadId := none, parts := [] } none none hrb).2.2.2.2.2.1
      { ok := true, text := "", json := Json.obj [("success", Json.bool true)] } rfl

/-- C3: for every credential pair and each of the six operations,
exactly one HTTP POST is issued, to `baseEndpoint + path` for the fixed
route of the operation — `baseEndpoint` being `EDGE_STORE_API_ENDPOINT`
when set and the fixed production URL otherwise — with header
`Content-Type: application/json` and header `Authorization` equal to
`Basic base64(accessKey:secretKey)`. -/
theorem operations_send_single_post
    (env : Env) (net : HttpRequest → HttpResponse) (ctx : Json) (router : AnyRouter)
    (accessKey secretKey url bucketName bucketType key : String)
    (fileInfo : FileInfoForUpload) (mp : Option MultipartParams)
    (upm : UploadPartsMultipart) (filter pagination : Option Json)
    (hrb : ∀ nb ∈ router.buckets, ∀ p ∈ nb.2._def.path, p ≠ []) :
    (env.EDGE_STORE_API_ENDPOINT = none → API_ENDPOINT env = "https://api.edgestore.dev")
    ∧ (∀ s, env.EDGE_STORE_API_ENDPOINT = some s → API_ENDPOINT env = s)
    ∧ (edgeStoreRawSdk.getToken env net accessKey secretKey ctx router).1
      = [{ url := API_ENDPOINT env ++ "/get-token", method := "POST",
           body := Json.serialize (Json.obj [("ctx", ctx),
             ("buckets", Json.obj (router.buckets.map (fun nb =>
               (nb.1, Json.obj [("path", Json.arr (nb.2._def.path.map firstEntryJson)),
                 ("accessControl", nb.2._def.accessControl)])))) ]),
           headers := [("Content-Type", "application/json"),
             ("Authorization", "Basic " ++ base64 (accessKey ++ ":" ++ secretKey))] }]
    ∧ (edgeStoreRawSdk.getFile env net accessKey secretKey url).1
      = [{ url := API_ENDPOINT env ++ "/get-file", method := "POST",
           body := Json.serialize (Json.obj [("url", Json.str url)]),
           headers := [("Content-Type", "application/json"),
             ("Authorization", "Basic " ++ base64 (accessKey ++ ":" ++ secretKey))] }]
    ∧ (edgeStoreRawSdk.requestUpload env net accessKey secretKey bucketName bucketType
        fileInfo mp).1
      = [{ url := API_ENDPOINT env ++ "/request-upload", method := "POST",
           body := Json.serialize (Json.obj
             [("multipart", optMultipartJson mp),
              ("bucketName", Json.str bucketName),
              ("bucketType", Json.str bucketType),
              ("isPublic", Json.bool fileInfo.isPublic),
              ("path", Json.arr (fileInfo.path.map pathEntryJson)),
              ("extension", Json.str fileInfo.extension),
              ("size", Json.num fileInfo.size),
              ("metadata", metadataJson fileInfo.metadata),
              ("replaceTargetUrl", optStrJson fileInfo.replaceTargetUrl)]),
           headers := [("Content-Type", "application/json"),
             ("Authorization", "Basic " ++ base64 (accessKey ++ ":" ++ secretKey))] }]
    ∧ (edgeStoreRawSdk.requestUploadParts env net accessKey secretKey key upm).1
      = [{ url := API_ENDPOINT env ++ "/request-upload-parts", method := "POST",
           body := Json.serialize (Json.obj
             [("multipart", upm.toJson), ("key", Json.str key)]),
           headers := [("Content-Type", "application/json"),
             ("Authorization", "Basic " ++ base64 (accessKey ++ ":" ++ secretKey))] }]
    ∧ (edgeStoreRawSdk.deleteFile env net accessKey secretKey url).1
      = [{ url := API_ENDPOINT env ++ "/delete-file", method := "POST",
           body := Json.serialize (Json.obj [("url", Json.str url)]),
           headers := [("Content-Type", "application/json"),
             ("Authorization", "Basic " ++ base64 (accessKey ++ ":" ++ secretKey))] }]
    ∧ (edgeStoreRawSdk.listFiles env net accessKey secretKey bucketName filter
        pagination).1
      = [{ url := API_ENDPOINT env ++ "/list-files", method := "POST",
           body := Json.serialize (Json.obj [("bucketName", Json.str bucketName),
             ("filter", Json.ofOption filter),
             ("pagination", Json.ofOption pagination)]),
           headers := [("Content-Type", "application/json"),
             ("Authorization", "Basic " ++ base64 (accessKey ++ ":" ++ secretKey))] }] := by
  refine ⟨?_, ?_, ?_, rfl, rfl, rfl, rfl, rfl⟩
  · intro hnone
    simp [API_ENDPOINT, hnone]
  · intro s hs
    simp [API_ENDPOINT, hs]
  · simp [edgeStoreRawSdk.getToken, buildReqBuckets_ok router hrb, makeRequest, requestOf]

/-- Witness for C3: the single request sent by `deleteFile` at concrete
inputs, with URL, body and the Basic-Auth header fully evaluated. -/
theorem operations_send_single_post_witness :
    (edgeStoreRawSdk.deleteFile emptyEnv (okNet Json.null) "ak" "sk" "u").1
      = [{ url := "https://api.edgestore.dev/delete-file", method := "POST",
           body := "\x7b\"url\":\"u\"\x7d",
           headers := [("Content-Type", "application/json"),
             ("Authorization", "Basic YWs6c2s=")] }] := by
  have h := (operations_send_single_post emptyEnv (okNet Json.null) Json.null sampleRouter
    "ak" "sk" "u" "b" "t" "k" sampleFileInfo none
    { uploadId := none, parts := [] } none none
    (by
      intro nb hnb p hp
      simp [sampleRouter] at hnb
      subst hnb
      simp at hp
      subst hp
      simp)).2.2.2.2.2.2.1
  exact h.trans (by rfl)

/-- C6: the value `requestUpload` returns is the triple projected from
the parsed 2xx response body: `multipart` and `signedUrl` are the
response fields of the same names and `accessUrl` is the response `url`
field. -/
theorem requestUpload_result_fields (env : Env) (net : HttpRequest → HttpResponse)
    (accessKey secretKey bucketName bucketType : String) (fileInfo : FileInfoForUpload)
    (mp : Option MultipartParams) (t : String) (j : Json)
    (h : ∀ r, net r = { ok := true, text := t, json := j }) :
    (edgeStoreRawSdk.requestUpload env net accessKey secretKey bucketName bucketType
        fileInfo mp).2
      = Except.ok { multipart := j.getField "multipart",
                    signedUrl := j.getField "signedUrl",
                    accessUrl := j.getField "url" } := by
  simp [edgeStoreRawSdk.requestUpload, makeRequest, h, Except.map]

/-- Witness for C6, the end-to-end example of the spec: a 2xx response
with body `{signedUrl: "s", url: "u"}` and no multipart field yields
exactly `{multipart: undefined, signedUrl: "s", accessUrl: "u"}`. -/
theorem requestUpload_result_fields_witness :
    (edgeStoreRawSdk.requestUpload emptyEnv
        (okNet (Json.obj [("signedUrl", Json.str "s"), ("url", Json.str "u")]))
        "ak" "sk" "bucket" "IMAGE" sampleFileInfo none).2
      = Except.ok { multipart := Json.undef, signedUrl := Json.str "s",
                    accessUrl := Json.str "u" } :=
  requestUpload_result_fields emptyEnv
    (okNet (Json.obj [("signedUrl", Json.str "s"), ("url", Json.str "u")]))
    "ak" "sk" "bucket" "IMAGE" sampleFileInfo none ""
    (Json.obj [("signedUrl", Json.str "s"), ("url", Json.str "u")]) (fun _ => rfl)

/-- C7: `listFiles` places the optional filter and pagination arguments
unchanged as the `filter` and `pagination` fields of the single request
body sent to `/list-files`, alongside `bucketName`; the body string sent
is exactly the JSON serialization of that object, so present arguments
are byte-identical after JSON serialization and absent ones are
`undefined` (omitted by serialization). -/
theorem listFiles_forwards_filter_pagination (env : Env)
    (net : HttpRequest → HttpResponse) (accessKey secretKey bucketName : String)
    (filter pagination : Option Json) :
    (edgeStoreRawSdk.listFiles env net accessKey secretKey bucketName filter pagination).1
      = [requestOf env (Json.obj [("bucketName", Json.str bucketName),
          ("filter", Json.ofOption filter), ("pagination", Json.ofOption pagination)])
          accessKey secretKey "/list-files"]
    ∧ (Json.obj [("bucketName", Json.str bucketName), ("filter", Json.ofOption filter),
        ("pagination", Json.ofOption pagination)]).getField "filter" = Json.ofOption filter
    ∧ (Json.obj [("bucketName", Json.str bucketName), ("filter", Json.ofOption filter),
        ("pagination", Json.ofOption pagination)]).getField "pagination"
      = Json.ofOption pagination
    ∧ ((edgeStoreRawSdk.listFiles env net accessKey secretKey bucketName filter
        pagination).1.map (fun r => r.body))
      = [Json.serialize (Json.obj [("bucketName", Json.str bucketName),
          ("filter", Json.ofOption filter), ("pagination", Json.ofOption pagination)])] :=
  ⟨rfl, rfl, rfl, rfl⟩

/-- C8: a handle successfully returned by `initEdgeStoreSdk` carries
exactly the resolved credential pair, and each of its six operations is
the corresponding `edgeStoreRawSdk` operation called with those
credentials and the same arguments — same request, same result, same
error. -/
theorem initEdgeStoreSdk_prebinds_credentials (env : Env) (params : Option InitParams)
    (sdk : Sdk) (h : initEdgeStoreSdk env params = Except.ok sdk) :
    resolveAccessKey env params = some sdk.accessKey
    ∧ resolveSecretKey env params = some sdk.secretKey
    ∧ (∀ net ctx router, Sdk.getToken sdk env net ctx router
        = edgeStoreRawSdk.getToken env net sdk.accessKey sdk.secretKey ctx router)
    ∧ (∀ net url, Sdk.getFile sdk env net url
        = edgeStoreRawSdk.getFile env net sdk.accessKey sdk.secretKey url)
    ∧ (∀ net bucketName bucketType fileInfo mp,
        Sdk.requestUpload sdk env net bucketName bucketType fileInfo mp
        = edgeStoreRawSdk.requestUpload env net sdk.accessKey sdk.secretKey bucketName
            bucketType fileInfo mp)
    ∧ (∀ net key upm, Sdk.requestUploadParts sdk env net key upm
        = edgeStoreRawSdk.requestUploadParts env net sdk.accessKey sdk.secretKey key upm)
    ∧ (∀ net url, Sdk.deleteFile sdk env net url
        = edgeStoreRawSdk.deleteFile env net sdk.accessKey sdk.secretKey url)
    ∧ (∀ net bucketName filter pagination,
        Sdk.listFiles sdk env net bucketName filter pagination
        = edgeStoreRawSdk.listFiles env net sdk.accessKey sdk.secretKey bucketName filter
            pagination) := by
  cases hak : resolveAccessKey env params with
  | none => simp [initEdgeStoreSdk, hak, truthyStr] at h
  | some a =>
      cases hsk : resolveSecretKey env params with
      | none => simp [initEdgeStoreSdk, hak, hsk, truthyStr] at h
      | some s =>
          by_cases ha : a = ""
          · simp [initEdgeStoreSdk, hak, hsk, truthyStr, ha] at h
          · by_cases hs : s = ""
            · simp [initEdgeStoreSdk, hak, hsk, truthyStr, hs] at h
            · simp [initEdgeStoreSdk, hak, hsk, truthyStr, ha, hs] at h
              subst h
              exact ⟨by simp [hak], by simp [hsk], fun _ _ _ => rfl, fun _ _ => rfl,
                fun _ _ _ _ _ => rfl, fun _ _ _ => rfl, fun _ _ => rfl,
                fun _ _ _ _ => rfl⟩

/-- Witness for C8: a concrete factory call succeeds with the explicit
credentials bound, and the handle method equals the raw operation. -/
theorem initEdgeStoreSdk_prebinds_credentials_witness :
    initEdgeStoreSdk emptyEnv (some { accessKey := some "ak", secretKey := some "sk" })
      = Except.ok { accessKey := "ak", secretKey := "sk" }
    ∧ Sdk.getFile { accessKey := "ak", secretKey := "sk" } emptyEnv (okNet Json.null) "u"
      = edgeStoreRawSdk.getFile emptyEnv (okNet Json.null) "ak" "sk" "u" :=
  ⟨rfl,
   (initEdgeStoreSdk_prebinds_credentials emptyEnv
      (some { accessKey := some "ak", secretKey := some "sk" })
      { accessKey := "ak", secretKey := "sk" } rfl).2.2.2.1 (okNet Json.null) "u"⟩
